import Mathlib

/-!
Verification development for the `registry_client` repository.

The repository is a Python client for the OCI/Docker registry HTTP API:
- `src/registry_client/reference.py` : the reference grammar and parser,
- `src/registry_client/utlis.py`     : digests, chain ids, auth challenges,
  platform filtering of manifest lists,
- `src/client.py`                    : the pull pipeline.

Strings are embedded as `List Char` (the model type `Str`), bytes as
`List Nat` (each entry < 256).  Fallible Python code (raising) is embedded
with `Except`/`Option`.  The regular expressions of `reference.py` are
embedded as executable acceptors over `List Char`, and the capture/split
behaviour of the anchored reference regex is embedded as a deterministic
splitting function; comments at each definition record the equivalence
argument with the greedy (leftmost, preferring longer) matching of the
source regex.
-/

/-- Model type for Python strings. -/
abbrev Str := List Char

/-! ## Generic splitting utilities (model of `str.find` / `str.partition` /
`str.split` and of regex separator placement) -/

/-- Split at the first occurrence of `c`: returns the part before and the
part after.  `none` when `c` does not occur. -/
def breakFirst (c : Char) : Str → Option (Str × Str)
  | [] => none
  | a :: as =>
    if a = c then some ([], as)
    else (breakFirst c as).map (fun pq => (a :: pq.1, pq.2))

/-- Split at the last occurrence of `c`. -/
def breakLast (c : Char) (x : Str) : Option (Str × Str) :=
  (breakFirst c x.reverse).map (fun pq => (pq.2.reverse, pq.1.reverse))

/-- Split on every occurrence of `c` (model of Python `str.split(c)`):
always returns a non-empty list of (possibly empty) segments. -/
def splitOnChar (c : Char) : Str → List Str
  | [] => [[]]
  | a :: as =>
    if a = c then [] :: splitOnChar c as
    else
      match splitOnChar c as with
      | [] => [[a]]
      | s :: ss => (a :: s) :: ss

theorem breakFirst_concat (c : Char) :
    ∀ (x p q : Str), breakFirst c x = some (p, q) → x = p ++ c :: q := by
  intro x
  induction x with
  | nil => intro p q h; simp [breakFirst] at h
  | cons a as ih =>
    intro p q h
    by_cases hac : a = c
    · rw [breakFirst, if_pos hac] at h
      obtain ⟨hp, hq⟩ := Prod.mk.injEq .. ▸ Option.some.injEq .. ▸ h
      subst hp; subst hq; simp [hac]
    · rw [breakFirst, if_neg hac] at h
      cases hrec : breakFirst c as with
      | none => rw [hrec] at h; simp at h
      | some pq =>
        rw [hrec] at h
        simp at h
        obtain ⟨hp, hq⟩ := h
        rw [← hp, ← hq]
        simpa using congrArg (a :: ·) (ih pq.1 pq.2 hrec)

theorem breakFirst_not_mem (c : Char) :
    ∀ (x p q : Str), breakFirst c x = some (p, q) → c ∉ p := by
  intro x
  induction x with
  | nil => intro p q h; simp [breakFirst] at h
  | cons a as ih =>
    intro p q h
    by_cases hac : a = c
    · rw [breakFirst, if_pos hac] at h
      obtain ⟨hp, _⟩ := Prod.mk.injEq .. ▸ Option.some.injEq .. ▸ h
      subst hp; simp
    · rw [breakFirst, if_neg hac] at h
      cases hrec : breakFirst c as with
      | none => rw [hrec] at h; simp at h
      | some pq =>
        rw [hrec] at h
        simp at h
        obtain ⟨hp, _⟩ := h
        rw [← hp]
        intro hmem
        rcases List.mem_cons.mp hmem with h1 | h2
        · exact hac h1.symm
        · exact ih pq.1 pq.2 hrec h2

theorem breakLast_concat (c : Char) (x p q : Str)
    (h : breakLast c x = some (p, q)) : x = p ++ c :: q := by
  unfold breakLast at h
  cases hb : breakFirst c x.reverse with
  | none => rw [hb] at h; simp at h
  | some pq =>
    rw [hb] at h
    simp at h
    obtain ⟨hp, hq⟩ := h
    have := breakFirst_concat c x.reverse pq.1 pq.2 hb
    have hx : x = (pq.1 ++ c :: pq.2).reverse := by
      rw [← this]; simp
    rw [hx, ← hp, ← hq]
    simp

/-! ## Character classes of `src/registry_client/reference.py`

The source builds its grammar from regex character classes (ASCII).  Each
Boolean predicate below is the direct translation of one class. -/

/-- `[a-z]`. -/
def isLowerAl (c : Char) : Bool := 'a' ≤ c && c ≤ 'z'

/-- `[A-Z]`. -/
def isUpperAl (c : Char) : Bool := 'A' ≤ c && c ≤ 'Z'

/-- `[0-9]`. -/
def isDigitC (c : Char) : Bool := '0' ≤ c && c ≤ '9'

/-- `[a-z0-9]` (the `alpha_numeric` class of `name_component`). -/
def isAlnumL (c : Char) : Bool := isLowerAl c || isDigitC c

/-- `[a-zA-Z0-9]` (the class of `domain_name_component`). -/
def isAlnumM (c : Char) : Bool := isLowerAl c || isUpperAl c || isDigitC c

/-- `[A-Za-z]`. -/
def isAlphaM (c : Char) : Bool := isLowerAl c || isUpperAl c

/-- `[[:xdigit:]]` — hex digits, both cases (digest hex part). -/
def isHexDigitC (c : Char) : Bool :=
  isDigitC c || ('a' ≤ c && c ≤ 'f') || ('A' ≤ c && c ≤ 'F')

/-- `[a-f0-9]` — the lowercase-hex class of `IDENTIFIER_REGEXP` and of the
64-hex guard in `parse_normalized_named`. -/
def isLowerHexC (c : Char) : Bool := isDigitC c || ('a' ≤ c && c ≤ 'f')

/-- `[\w]` = `[A-Za-z0-9_]` (first char of `tag`). -/
def isWordC (c : Char) : Bool := isAlnumM c || c = '_'

/-- A cased character in the ASCII range (as Python `str.islower` sees it). -/
def isCasedC (c : Char) : Bool := isLowerAl c || isUpperAl c

/-- The restriction of Python `str.islower()` to ASCII strings: all
cased characters are lowercase and there is at least one cased
character, with ASCII letters as the cased characters.  (`parse` at
`reference.py:182` calls `name.islower()`, which is Unicode-aware; on a
non-ASCII cased input the two differ, so statements that need the
no-letters / lowercase-only directions carry an all-ASCII hypothesis.
The uppercase direction is valid for every input: one ASCII uppercase
character already makes `str.islower()` return `False`.) -/
def pyIsLower (s : Str) : Bool :=
  s.any isCasedC && s.all (fun c => !isUpperAl c)

/-! ## Grammar acceptors (the regexes of `reference.py`, lines 54-92)

`name_component = [a-z0-9]+(?:(?:[._]|__|[-]*)[a-z0-9]+)*`
(`separator = (?:[._]|__|[-]*)`, which may also be empty): a word over
`[a-z0-9._-]` that starts and ends alphanumeric and in which every maximal
run of separator characters is `.`, `_`, `__` or a run of `-`.  The
acceptor is a four-state automaton:
state 0 — just read an alphanumeric (accepting);
state 1 — a separator was read that must be followed by an alphanumeric
  (after `.` or `__`);
state 2 — just read a single `_`;
state 3 — inside a `-` run. -/
def ncAux : Nat → Str → Bool
  | 0, [] => true
  | 0, c :: cs =>
    if isAlnumL c then ncAux 0 cs
    else if c = '.' then ncAux 1 cs
    else if c = '_' then ncAux 2 cs
    else if c = '-' then ncAux 3 cs
    else false
  | 1, [] => false
  | 1, c :: cs => if isAlnumL c then ncAux 0 cs else false
  | 2, [] => false
  | 2, c :: cs =>
    if isAlnumL c then ncAux 0 cs
    else if c = '_' then ncAux 1 cs
    else false
  | 3, [] => false
  | 3, c :: cs =>
    if isAlnumL c then ncAux 0 cs
    else if c = '-' then ncAux 3 cs
    else false
  | _ + 4, _ => false

/-- Acceptor of `name_component` (`reference.py:56`). -/
def isNameComponent : Str → Bool
  | [] => false
  | c :: cs => isAlnumL c && ncAux 0 cs

/-- Acceptor of `domain_name_component`
(`(?:[a-zA-Z0-9]|[a-zA-Z0-9][a-zA-Z0-9-]*[a-zA-Z0-9])`, line 58):
non-empty, first and last characters alphanumeric, inner characters
alphanumeric or `-`. -/
def isDomainNameComponent (s : Str) : Bool :=
  match s with
  | [] => false
  | c :: cs =>
    isAlnumM c && cs.all (fun d => isAlnumM d || d = '-')
      && isAlnumM ((c :: cs).getLastD 'a')

/-- Acceptor of `domain_name` = `dnc(\.dnc)*` (line 60): neither `dnc` nor
`.` can be empty, so splitting on `.` is faithful. -/
def isDomainName (s : Str) : Bool :=
  (splitOnChar '.' s).all isDomainNameComponent

/-- Port suffix of `domain`: either nothing or `:[0-9]+` (line 64). -/
def portOk : Str → Bool
  | [] => true
  | ':' :: ds => !ds.isEmpty && ds.all isDigitC
  | _ => false

/-- Acceptor of `domain` = `(domain_name|ipv6_address)(?::[0-9]+)?`
(lines 59-65).  `ipv6_address = \[[a-fA-F0-9:]+\]`; the bracketed interior
cannot contain `]`, so the first `]` closes it.  `domain_name` cannot
contain `:`, so the first `:` (if any) starts the port. -/
def isDomainPat (s : Str) : Bool :=
  match s with
  | '[' :: rest =>
    match breakFirst ']' rest with
    | some (inner, after) =>
      !inner.isEmpty && inner.all (fun c => isHexDigitC c || c = ':')
        && portOk after
    | none => false
  | _ =>
    match breakFirst ':' s with
    | some (h, p) => isDomainName h && !p.isEmpty && p.all isDigitC
    | none => isDomainName s

/-- Acceptor of `name_pat` = `(?:domain/)?nc(?:/nc)*` (line 76).  No
segment of a name contains `/`, so splitting on `/` is faithful: either
every segment is a `name_component`, or the first segment is a `domain`
and the (non-empty) rest are `name_component`s. -/
def isNamePat (l : Str) : Bool :=
  match splitOnChar '/' l with
  | [] => false
  | s1 :: rest =>
    (s1 :: rest).all isNameComponent
      || (isDomainPat s1 && !rest.isEmpty && rest.all isNameComponent)

/-- Acceptor of `tag` = `[\w][\w.-]{0,127}` (line 68). -/
def isTagPat : Str → Bool
  | [] => false
  | c :: cs =>
    isWordC c && cs.length ≤ 127
      && cs.all (fun d => isWordC d || d = '.' || d = '-')

/-- Scanner for the algorithm part of `DIGEST_REGEXP`
(`[A-Za-z][A-Za-z0-9]*(?:[-_+.][A-Za-z][A-Za-z0-9]*)*`, line 73).
`expectAlpha = true` means the next character must start a new
`[A-Za-z][A-Za-z0-9]*` unit. -/
def algScan : Bool → Str → Bool
  | expectAlpha, [] => !expectAlpha
  | true, c :: cs => if isAlphaM c then algScan false cs else false
  | false, c :: cs =>
    if isAlnumM c then algScan false cs
    else if c = '-' || c = '_' || c = '+' || c = '.' then algScan true cs
    else false

/-- Acceptor of `DIGEST_REGEXP` = `alg:[[:xdigit:]]{32,}` (line 73).  The
algorithm part cannot contain `:` and the hex part consists of hex digits
only, so the first `:` is the unique separator. -/
def isDigestPat (s : Str) : Bool :=
  match breakFirst ':' s with
  | some (alg, hex) =>
    algScan true alg && 32 ≤ hex.length && hex.all isHexDigitC
  | none => false

/-! ## Digest (`src/registry_client/digest.py`) -/

/-- Modelled from the spec: `src/registry_client/digest.py` is not part of
the source snapshot (only its importers are).  Per spec section 3, a
`Digest` is an immutable value whose canonical form is the
`algorithm:hex` string; `DigestReference.__str__` returns `digest.value`
and `client.py` slices digests as `digest[7:]`, so `value` holds the full
`algorithm:hex` string. -/
structure Digest where
  value : Str
deriving DecidableEq

/-- Modelled from the spec (section 4.1): `Digest.is_digest` recognises
`algorithm:hex` with the algorithm drawn from a recognised set (e.g.
`sha256`) and a hex part of length at least 32. -/
def recognizedAlgorithms : List Str := ["sha256".data, "sha512".data]

/-- Modelled from the spec (section 4.1): the validity test used by
`parse` at `reference.py:200`. -/
def Digest.is_digest (s : Str) : Bool :=
  match breakFirst ':' s with
  | some (alg, hex) =>
    recognizedAlgorithms.contains alg && 32 ≤ hex.length
      && hex.all isHexDigitC
  | none => false

/-! ## The Reference variants (`reference.py`, lines 95-167) -/

/-- The five reference variants.  The Python source expresses them as a
class hierarchy (`Reference` / `NamedReference` / `TaggedReference` /
`DigestReference` / `CanonicalReference` / `FullReference`); the sum type
carries the same fields. -/
inductive Reference where
  | named (domain path : Str)
  | tagged (domain path tag : Str)
  | digestRef (digest : Digest)
  | canonical (domain path : Str) (digest : Digest)
  | full (domain path tag : Str) (digest : Digest)
deriving DecidableEq

/-- `Reference.name` (`reference.py:100-104`): `path` when the domain is
empty, else `domain/path`. -/
def refName (domain path : Str) : Str :=
  if domain = [] then path else domain ++ '/' :: path

/-- The `__str__` conversions (`reference.py` lines 106-107, 129-130,
141-142, 153-154, 162-167).  `CanonicalReference.__str__` interpolates
`self.digest`, whose string form is the digest's value (see `Digest`);
`FullReference.__str__` re-implements the domain test of `name` inline. -/
def refStr : Reference → Str
  | .named d p => refName d p
  | .tagged d p t => refName d p ++ ':' :: t
  | .digestRef dg => dg.value
  | .canonical d p dg => refName d p ++ '@' :: dg.value
  | .full d p t dg =>
    (if d = [] then p else d ++ '/' :: p) ++ ':' :: t ++ '@' :: dg.value

/-- The `target` properties (`reference.py` lines 109-111, 116-118,
123-125, 134-136, 149-151).  `NamedReference.target` returns `"latest"`;
`FullReference` subclasses `NamedReference` and does NOT override
`target`, so a full reference inherits the `"latest"` answer. -/
def Reference.target : Reference → Str
  | .named _ _ => "latest".data
  | .tagged _ _ t => t
  | .digestRef dg => dg.value
  | .canonical _ _ dg => dg.value
  | .full _ _ _ _ => "latest".data

/-! ## The parser (`reference.py`, lines 170-213)

`REFERENCE_REGEXP` is `^(name_pat)(?::(tag))?(?:@(digest))?$`.  The
splitter below reproduces its (greedy, leftmost-preferring) captures:

* `@` occurs in none of `name_pat`, `tag`, `digest`, so a matching input
  contains at most one `@` and the digest part is everything after the
  first (and only) `@`.
* `tag` contains no `:`; `name_pat` admits `:` only inside its optional
  leading `domain`, which must be followed by `/`.  Hence when the part
  left of `@` itself matches `name_pat` the greedy engine takes all of it
  and captures no tag (no alternative split exists: after the last `:` of
  such a name there is always a `/`, which a tag cannot contain); and
  otherwise the only possible tag split is at the LAST `:`. -/
inductive RefErr where
  | nameEmpty
  | nameContainsUppercase
  | referenceInvalidFormat
  | nameTooLong
  | invalidDigestFormat
deriving DecidableEq

/-- Tag capture on the part left of `@`: whole-name first (greedy), else
split at the last `:`. -/
def tagSplit (l : Str) : Option (Str × Option Str) :=
  if isNamePat l then some (l, none)
  else
    match breakLast ':' l with
    | none => none
    | some (p, q) =>
      if isNamePat p && isTagPat q then some (p, some q) else none

/-- The three captures of `REFERENCE_REGEXP.findall` (`reference.py:178`):
`(name, tag?, digest?)`, or `none` when the anchored match fails. -/
def decomposeRef (x : Str) : Option (Str × Option Str × Option Str) :=
  match breakFirst '@' x with
  | some (l, d) =>
    if isDigestPat d then (tagSplit l).map (fun nt => (nt.1, nt.2, some d))
    else none
  | none => (tagSplit x).map (fun nt => (nt.1, nt.2, none))

/-- The domain/path captures of `ANCHORED_NAME_REGEXP` applied to the
matched name (`reference.py:188-193`).  `anchored_name` is
`^(?:(domain)/)?(name_pat(?:/name_pat)*)$`; on any string matched by
`name_pat` the greedy engine captures the part before the first `/` as
the domain exactly when it matches `domain` (the remaining segments are
then `name_component`s, hence a valid path), else the whole string is the
path. -/
def splitDomain (nm : Str) : Str × Str :=
  match breakFirst '/' nm with
  | some (pre, post) => if isDomainPat pre then (pre, post) else ([], nm)
  | none => ([], nm)

/-- Variant selection (`reference.py:194-213`): dispatch on the presence
of tag and digest; an empty `repo.name` yields `DigestReference` (with a
digest) or `ErrNameEmpty`. -/
def selectVariant (dom path : Str) (tg : Option Str) (dg : Option Digest) :
    Except RefErr Reference :=
  if refName dom path = [] then
    match dg with
    | some d => .ok (.digestRef d)
    | none => .error .nameEmpty
  else
    match tg, dg with
    | none, some d => .ok (.canonical dom path d)
    | none, none => .ok (.named dom path)
    | some t, none => .ok (.tagged dom path t)
    | some t, some d => .ok (.full dom path t d)

/-- `parse` (`reference.py:170-213`).  On regex failure the error is
classified by emptiness and `str.islower` (lines 179-184); on success the
name length is checked against `NameTotalLengthMax = 255` (line 186), the
name is split into domain and path (lines 188-193), a present digest is
validated with `Digest.is_digest` (lines 199-202), and the variant is
selected (lines 203-213). -/
def parse (x : Str) : Except RefErr Reference :=
  match decomposeRef x with
  | none =>
    if x = [] then .error .nameEmpty
    else if !pyIsLower x then .error .nameContainsUppercase
    else .error .referenceInvalidFormat
  | some (nm, tg, dg) =>
    if 255 < nm.length then .error .nameTooLong
    else
      match dg with
      | some d =>
        if !Digest.is_digest d then .error .invalidDigestFormat
        else selectVariant (splitDomain nm).1 (splitDomain nm).2 tg (some ⟨d⟩)
      | none => selectVariant (splitDomain nm).1 (splitDomain nm).2 tg none

/-! ## Reassembly lemmas for the parser -/

/-- The text contributed by an optional tag capture. -/
def optTagStr : Option Str → Str
  | none => []
  | some t => ':' :: t

/-- The text contributed by an optional digest capture. -/
def optDigStr : Option Str → Str
  | none => []
  | some d => '@' :: d

theorem tagSplit_concat (l nm : Str) (tg : Option Str)
    (h : tagSplit l = some (nm, tg)) : l = nm ++ optTagStr tg := by
  unfold tagSplit at h
  split at h
  · simp at h
    obtain ⟨h1, h2⟩ := h
    rw [← h1, ← h2]
    simp [optTagStr]
  · split at h
    · simp at h
    · rename_i p q heq
      split at h
      · simp at h
        obtain ⟨h1, h2⟩ := h
        rw [← h1, ← h2]
        simpa [optTagStr] using breakLast_concat ':' l p q heq
      · simp at h

theorem tagSplit_isNamePat (l nm : Str) (tg : Option Str)
    (h : tagSplit l = some (nm, tg)) : isNamePat nm = true := by
  unfold tagSplit at h
  split at h
  · rename_i hn
    simp at h
    rw [← h.1]; exact hn
  · split at h
    · simp at h
    · rename_i hok
      split at h
      · simp at h
        rw [← h.1]
        rename_i hcond
        exact (Bool.and_eq_true_iff.mp hcond).1
      · simp at h

theorem decomposeRef_concat (x nm : Str) (tg dg : Option Str)
    (h : decomposeRef x = some (nm, tg, dg)) :
    x = nm ++ optTagStr tg ++ optDigStr dg := by
  unfold decomposeRef at h
  split at h
  · rename_i l d heq
    split at h
    · cases hts : tagSplit l with
      | none => rw [hts] at h; simp at h
      | some nt =>
        rw [hts] at h
        simp at h
        obtain ⟨h1, h2, h3⟩ := h
        have hx := breakFirst_concat '@' x l d heq
        have hl := tagSplit_concat l nt.1 nt.2 hts
        rw [hx, hl, ← h1, ← h2, ← h3]
        simp [optDigStr]
    · simp at h
  · cases hts : tagSplit x with
    | none => rw [hts] at h; simp at h
    | some nt =>
      rw [hts] at h
      simp at h
      obtain ⟨h1, h2, h3⟩ := h
      rw [← h1, ← h3]
      simpa [optDigStr, ← h2] using tagSplit_concat x nt.1 nt.2 hts

theorem decomposeRef_isNamePat (x nm : Str) (tg dg : Option Str)
    (h : decomposeRef x = some (nm, tg, dg)) : isNamePat nm = true := by
  unfold decomposeRef at h
  split at h
  · rename_i l d heq
    split at h
    · cases hts : tagSplit l with
      | none => rw [hts] at h; simp at h
      | some nt =>
        rw [hts] at h
        simp at h
        rw [← h.1]
        exact tagSplit_isNamePat l nt.1 nt.2 hts
    · simp at h
  · cases hts : tagSplit x with
    | none => rw [hts] at h; simp at h
    | some nt =>
      rw [hts] at h
      simp at h
      rw [← h.1]
      exact tagSplit_isNamePat x nt.1 nt.2 hts

theorem refName_splitDomain (nm : Str) :
    refName (splitDomain nm).1 (splitDomain nm).2 = nm := by
  unfold splitDomain
  split
  · rename_i pre post heq
    split
    · rename_i hd
      have hne : pre ≠ [] := by
        intro hnil
        rw [hnil] at hd
        exact absurd hd (by decide)
      simp only [refName, if_neg hne]
      exact (breakFirst_concat '/' nm pre post heq).symm
    · simp [refName]
  · simp [refName]

theorem selectVariant_refStr (dom path : Str) (tg : Option Str)
    (dg : Option Digest) (r : Reference)
    (h : selectVariant dom path tg dg = .ok r)
    (hne : refName dom path ≠ []) :
    refStr r = refName dom path ++ optTagStr tg
      ++ optDigStr (dg.map Digest.value) := by
  unfold selectVariant at h
  rw [if_neg hne] at h
  match tg, dg with
  | none, some d =>
    simp at h
    rw [← h]
    simp [refStr, optTagStr, optDigStr]
  | none, none =>
    simp at h
    rw [← h]
    simp [refStr, optTagStr, optDigStr]
  | some t, none =>
    simp at h
    rw [← h]
    simp [refStr, optTagStr, optDigStr]
  | some t, some d =>
    simp at h
    rw [← h]
    simp [refStr, refName, optTagStr, optDigStr]

theorem isNamePat_ne_nil (nm : Str) (h : isNamePat nm = true) : nm ≠ [] := by
  intro hnil
  rw [hnil] at h
  exact absurd h (by decide)

theorem parse_ok_refStr (x : Str) (r : Reference)
    (h : parse x = .ok r) : refStr r = x := by
  unfold parse at h
  split at h
  · split at h
    · simp at h
    · split at h <;> simp at h
  · rename_i nm tg dg hdec
    split at h
    · simp at h
    · have hnm : isNamePat nm = true := decomposeRef_isNamePat x nm tg dg hdec
      have hne : refName (splitDomain nm).1 (splitDomain nm).2 ≠ [] := by
        rw [refName_splitDomain]
        exact isNamePat_ne_nil nm hnm
      have hcat := decomposeRef_concat x nm tg dg hdec
      split at h
      next d =>
        split at h
        · simp at h
        · have hsel := selectVariant_refStr (splitDomain nm).1 (splitDomain nm).2
            tg (some ⟨d⟩) r h hne
          rw [hsel, refName_splitDomain, hcat]
          simp [optDigStr]
      next =>
        have hsel := selectVariant_refStr (splitDomain nm).1 (splitDomain nm).2
          tg none r h hne
        rw [hsel, refName_splitDomain, hcat]
        simp [optDigStr]

/-- Equality of `Except` results is decidable (used only by witnesses). -/
instance {e a : Type} [DecidableEq e] [DecidableEq a] :
    DecidableEq (Except e a) := fun a b =>
  match a, b with
  | .ok r1, .ok r2 =>
    if h : r1 = r2 then .isTrue (by rw [h]) else .isFalse (by simp [h])
  | .error e1, .error e2 =>
    if h : e1 = e2 then .isTrue (by rw [h]) else .isFalse (by simp [h])
  | .ok _, .error _ => .isFalse (by simp)
  | .error _, .ok _ => .isFalse (by simp)

theorem selectVariant_ok (dom path : Str) (tg : Option Str)
    (dg : Option Digest) (hne : refName dom path ≠ []) :
    ∃ r, selectVariant dom path tg dg = .ok r := by
  unfold selectVariant
  rw [if_neg hne]
  match tg, dg with
  | none, some d => exact ⟨.canonical dom path d, rfl⟩
  | none, none => exact ⟨.named dom path, rfl⟩
  | some t, none => exact ⟨.tagged dom path t, rfl⟩
  | some t, some d => exact ⟨.full dom path t d, rfl⟩

/-- C2: a syntactically valid reference string — one the anchored
reference regex decomposes, with a name of at most 255 characters and a
valid digest part when present — is accepted by `parse`; and for every
string that `parse` accepts, the printed form of the result is literally
the input again, so re-parsing it succeeds and yields the same variant
with the same fields (idempotent round-trip).  This in particular covers
bare `algorithm:hex` digest strings, whose printed form is again the
bare digest string. -/
theorem parse_str_roundtrip :
    (∀ x nm tg dg, decomposeRef x = some (nm, tg, dg) →
      nm.length ≤ 255 →
      (∀ d, dg = some d → Digest.is_digest d = true) →
      ∃ r, parse x = .ok r) ∧
    (∀ x r, parse x = .ok r →
      refStr r = x ∧ parse (refStr r) = .ok r) := by
  constructor
  · intro x nm tg dg hdec hlen hdig
    have hnm : isNamePat nm = true := decomposeRef_isNamePat x nm tg dg hdec
    have hne : refName (splitDomain nm).1 (splitDomain nm).2 ≠ [] := by
      rw [refName_splitDomain]
      exact isNamePat_ne_nil nm hnm
    unfold parse
    simp only [hdec]
    rw [if_neg (by omega : ¬255 < nm.length)]
    cases dg with
    | none => exact selectVariant_ok _ _ tg none hne
    | some d =>
      show ∃ r, (if (!Digest.is_digest d) = true
          then Except.error RefErr.invalidDigestFormat
          else selectVariant (splitDomain nm).1 (splitDomain nm).2 tg
            (some ⟨d⟩)) = .ok r
      rw [if_neg (by simp [hdig d rfl])]
      exact selectVariant_ok _ _ tg (some ⟨d⟩) hne
  · intro x r h
    have h1 := parse_ok_refStr x r h
    exact ⟨h1, by rw [h1]; exact h⟩

set_option maxRecDepth 10000 in
/-- Witness for `parse_str_roundtrip`: the success branch applied at
`foo@sha256:<64 hex>` (a valid canonical reference string), and the
round-trip branch at the digest-only string `sha256:<64 hex>`, which
parses (as a tagged reference, path `sha256`, the hex as tag), prints
back to itself, and re-parses identically. -/
theorem parse_str_roundtrip_witness :
    (∃ r, parse
        "foo@sha256:aaaaaaaaaaaaaaaaaaaaaaaaaaaaaaaaaaaaaaaaaaaaaaaaaaaaaaaaaaaaaaaa".data =
      .ok r) ∧
    refStr (.tagged [] "sha256".data
        "aaaaaaaaaaaaaaaaaaaaaaaaaaaaaaaaaaaaaaaaaaaaaaaaaaaaaaaaaaaaaaaa".data) =
      "sha256:aaaaaaaaaaaaaaaaaaaaaaaaaaaaaaaaaaaaaaaaaaaaaaaaaaaaaaaaaaaaaaaa".data ∧
    parse (refStr (.tagged [] "sha256".data
        "aaaaaaaaaaaaaaaaaaaaaaaaaaaaaaaaaaaaaaaaaaaaaaaaaaaaaaaaaaaaaaaa".data)) =
      .ok (.tagged [] "sha256".data
        "aaaaaaaaaaaaaaaaaaaaaaaaaaaaaaaaaaaaaaaaaaaaaaaaaaaaaaaaaaaaaaaa".data) := by
  refine ⟨parse_str_roundtrip.1
    "foo@sha256:aaaaaaaaaaaaaaaaaaaaaaaaaaaaaaaaaaaaaaaaaaaaaaaaaaaaaaaaaaaaaaaa".data
    "foo".data none
    (some "sha256:aaaaaaaaaaaaaaaaaaaaaaaaaaaaaaaaaaaaaaaaaaaaaaaaaaaaaaaaaaaaaaaa".data)
    (by decide) (by decide)
    (fun d hd => by
      rw [show d =
        "sha256:aaaaaaaaaaaaaaaaaaaaaaaaaaaaaaaaaaaaaaaaaaaaaaaaaaaaaaaaaaaaaaaa".data
        from (Option.some.injEq .. ▸ hd).symm]
      decide), ?_, ?_⟩
  · exact (parse_str_roundtrip.2
      "sha256:aaaaaaaaaaaaaaaaaaaaaaaaaaaaaaaaaaaaaaaaaaaaaaaaaaaaaaaaaaaaaaaa".data
      (.tagged [] "sha256".data
        "aaaaaaaaaaaaaaaaaaaaaaaaaaaaaaaaaaaaaaaaaaaaaaaaaaaaaaaaaaaaaaaa".data)
      (by decide)).1
  · exact (parse_str_roundtrip.2
      "sha256:aaaaaaaaaaaaaaaaaaaaaaaaaaaaaaaaaaaaaaaaaaaaaaaaaaaaaaaaaaaaaaaa".data
      (.tagged [] "sha256".data
        "aaaaaaaaaaaaaaaaaaaaaaaaaaaaaaaaaaaaaaaaaaaaaaaaaaaaaaaaaaaaaaaa".data)
      (by decide)).2

/-! ## C3: the `target` properties -/

/-- C3 counterexample: a `FullReference` with tag `"v2"` has
`target = "latest"` — `FullReference` inherits `NamedReference.target`
(`reference.py:116-118`) and never overrides it, so `target` is not the
tag of the tag-bearing `FullReference` variant. -/
theorem full_target_not_tag :
    Reference.target
        (.full "a.com".data "foo".data "v2".data
          ⟨"sha256:aaaaaaaaaaaaaaaaaaaaaaaaaaaaaaaaaaaaaaaaaaaaaaaaaaaaaaaaaaaaaaaa".data⟩) =
      "latest".data ∧
    "latest".data ≠ "v2".data := by
  exact ⟨rfl, by decide⟩

/-- C3 amended: `target` is the tag for `TaggedReference`; it is the
constant `"latest"` for `FullReference` (inherited from
`NamedReference`); and it is the digest value for `CanonicalReference`
and `DigestReference`. -/
theorem target_dispatch (d p t : Str) (dg : Digest) :
    Reference.target (.tagged d p t) = t ∧
    Reference.target (.full d p t dg) = "latest".data ∧
    Reference.target (.canonical d p dg) = dg.value ∧
    Reference.target (.digestRef dg) = dg.value :=
  ⟨rfl, rfl, rfl, rfl⟩

/-! ## C4: error classification of `parse` (`reference.py:179-187`) -/

theorem hasUpper_not_pyIsLower (x : Str) (h : x.any isUpperAl = true) :
    pyIsLower x = false := by
  obtain ⟨c, hc, hcu⟩ := List.any_eq_true.mp h
  unfold pyIsLower
  have : x.all (fun c => !isUpperAl c) = false := by
    rw [List.all_eq_false]
    exact ⟨c, hc, by simp [hcu]⟩
  simp [this]

theorem noLetters_not_pyIsLower (x : Str) (hu : x.any isUpperAl = false)
    (hl : x.any isLowerAl = false) : pyIsLower x = false := by
  unfold pyIsLower
  have : x.any isCasedC = false := by
    rw [List.any_eq_false]
    intro c hc
    have h1 := List.any_eq_false.mp hu c hc
    have h2 := List.any_eq_false.mp hl c hc
    simp [isCasedC, h1, h2]
  simp [this]

theorem lowerOnly_pyIsLower (x : Str) (hu : x.any isUpperAl = false)
    (hl : x.any isLowerAl = true) : pyIsLower x = true := by
  unfold pyIsLower
  obtain ⟨c, hc, hcl⟩ := List.any_eq_true.mp hl
  have h1 : x.any isCasedC = true :=
    List.any_eq_true.mpr ⟨c, hc, by simp [isCasedC, hcl]⟩
  have h2 : x.all (fun c => !isUpperAl c) = true := by
    rw [List.all_eq_true]
    intro d hd
    simp [List.any_eq_false.mp hu d hd]
  simp [h1, h2]

/-- C4 counterexample: `parse "!!!"` raises `ErrNameContainsUppercase`
although `"!!!"` contains no uppercase letter — Python's `islower()` is
also false for strings with no cased character at all, so the
"(and only when)" part of the claim fails. -/
theorem parse_bang_uppercase_error :
    parse "!!!".data = .error .nameContainsUppercase ∧
    "!!!".data.any isUpperAl = false := by
  exact ⟨by decide, by decide⟩

/-- C4 amended: when the anchored reference match fails, `parse` raises
`ErrNameEmpty` on the empty input; `ErrNameContainsUppercase` when the
input contains an uppercase letter (true of every input containing an
ASCII uppercase letter), or — for ASCII inputs — when it contains no
letter at all (Python `islower()` is false in both situations);
`ErrReferenceInvalidFormat` for ASCII inputs containing a lowercase
letter and no uppercase one; and when the match succeeds with a name
part longer than 255 characters, `parse` raises `ErrNameTooLong`.  The
all-ASCII hypotheses of the third and fourth branches mark where the
ASCII model of `str.islower` coincides with Python's Unicode-aware one;
they are not needed to prove the model but scope the statement to
inputs where model and program agree. -/
theorem parse_error_classification (x : Str) :
    (decomposeRef x = none → x = [] → parse x = .error .nameEmpty) ∧
    (decomposeRef x = none → x ≠ [] → x.any isUpperAl = true →
      parse x = .error .nameContainsUppercase) ∧
    (decomposeRef x = none → x ≠ [] → (∀ c ∈ x, c.toNat < 128) →
      x.any isUpperAl = false → x.any isLowerAl = false →
      parse x = .error .nameContainsUppercase) ∧
    (decomposeRef x = none → x ≠ [] → (∀ c ∈ x, c.toNat < 128) →
      x.any isUpperAl = false → x.any isLowerAl = true →
      parse x = .error .referenceInvalidFormat) ∧
    (∀ nm tg dg, decomposeRef x = some (nm, tg, dg) → 255 < nm.length →
      parse x = .error .nameTooLong) := by
  refine ⟨?_, ?_, ?_, ?_, ?_⟩
  · intro hdec hx
    unfold parse
    rw [hdec, if_pos hx]
  · intro hdec hx hup
    unfold parse
    rw [hdec, if_neg hx]
    simp [hasUpper_not_pyIsLower x hup]
  · intro hdec hx _hascii hup hlo
    unfold parse
    rw [hdec, if_neg hx]
    simp [noLetters_not_pyIsLower x hup hlo]
  · intro hdec hx _hascii hup hlo
    unfold parse
    rw [hdec, if_neg hx]
    simp [lowerOnly_pyIsLower x hup hlo]
  · intro nm tg dg hdec hlen
    unfold parse
    rw [hdec]
    simp [hlen]

set_option maxRecDepth 10000 in
/-- Witness for `parse_error_classification`: each branch applied at a
concrete input — `""` (empty), `"A!"` (uppercase), `"!!!"` (no letters),
`"a!"` (lowercase only), and a 300-character name (too long). -/
theorem parse_error_classification_witness :
    parse [] = .error .nameEmpty ∧
    parse "A!".data = .error .nameContainsUppercase ∧
    parse "!!!".data = .error .nameContainsUppercase ∧
    parse "a!".data = .error .referenceInvalidFormat ∧
    parse (List.replicate 300 'a') = .error .nameTooLong :=
  ⟨(parse_error_classification []).1 (by decide) rfl,
   (parse_error_classification "A!".data).2.1 (by decide) (by decide) (by decide),
   (parse_error_classification "!!!".data).2.2.1 (by decide) (by decide)
     (by decide) (by decide) (by decide),
   (parse_error_classification "a!".data).2.2.2.1 (by decide) (by decide)
     (by decide) (by decide) (by decide),
   (parse_error_classification (List.replicate 300 'a')).2.2.2.2
     (List.replicate 300 'a') none none (by decide) (by decide)⟩

/-! ## `split_docker_domain` and `parse_normalized_named`
(`reference.py:216-246`) -/

/-- `DEFAULT_REGISTRY_HOST` (`utlis.py:20`). -/
def DEFAULT_REGISTRY_HOST : Str := "registry-1.docker.io".data

/-- `DEFAULT_REPO` (`utlis.py:19`). -/
def DEFAULT_REPO : Str := "library".data

/-- `IMAGE_DEFAULT_TAG` (`utlis.py:18`). -/
def IMAGE_DEFAULT_TAG : Str := "latest".data

/-- `split_docker_domain` (`reference.py:216-226`), first step
(lines 217-221): route the name onto the default host unless the prefix
before the first `/` looks like a registry host — contains `.` or `:`
(the `re2.findall("[.:]", ...)` test) or is the literal `localhost`. -/
def split_docker_domain_raw (name : Str) : Str × Str :=
  match breakFirst '/' name with
  | none => (DEFAULT_REGISTRY_HOST, name)
  | some (pre, post) =>
    if (¬∃ c ∈ pre, c = '.' ∨ c = ':') ∧ pre ≠ "localhost".data then
      (DEFAULT_REGISTRY_HOST, name)
    else (pre, post)

/-- Second step (lines 222-223): rewrite the legacy alias
`index.docker.io` to the default host. -/
def split_docker_alias (dr : Str × Str) : Str × Str :=
  if dr.1 = "index.docker.io".data then (DEFAULT_REGISTRY_HOST, dr.2)
  else dr

/-- Third step (lines 224-225): prepend the default namespace when the
resolved host is the default host and the remainder has no `/`. -/
def split_docker_prepend (dr : Str × Str) : Str × Str :=
  if dr.1 = DEFAULT_REGISTRY_HOST ∧ '/' ∉ dr.2 then
    (dr.1, DEFAULT_REPO ++ '/' :: dr.2)
  else dr

/-- `split_docker_domain` (`reference.py:216-226`). -/
def split_docker_domain (name : Str) : Str × Str :=
  split_docker_prepend (split_docker_alias (split_docker_domain_raw name))

theorem breakFirst_none_not_mem (c : Char) :
    ∀ x : Str, breakFirst c x = none → c ∉ x := by
  intro x
  induction x with
  | nil => intro _; simp
  | cons a as ih =>
    intro h
    by_cases hac : a = c
    · rw [breakFirst, if_pos hac] at h
      simp at h
    · rw [breakFirst, if_neg hac] at h
      cases hrec : breakFirst c as with
      | none =>
        intro hmem
        rcases List.mem_cons.mp hmem with h1 | h2
        · exact hac h1.symm
        · exact ih hrec h2
      | some pq => rw [hrec] at h; simp at h

theorem mem_of_breakFirst (c : Char) (x p q : Str)
    (h : breakFirst c x = some (p, q)) : c ∈ x := by
  rw [breakFirst_concat c x p q h]
  simp

/-- C8 counterexample: the claim's general rule says a name whose prefix
before the first `/` contains a `.` is a path on another host, left
untouched; but `split_docker_domain "index.docker.io/foo"` rewrites the
legacy alias to the default host and prepends the default namespace,
yielding `(registry-1.docker.io, library/foo)` instead of
`(index.docker.io, foo)`. -/
theorem split_docker_domain_alias_cex :
    split_docker_domain "index.docker.io/foo".data =
      (DEFAULT_REGISTRY_HOST, "library/foo".data) ∧
    (DEFAULT_REGISTRY_HOST, ("library/foo".data : Str)) ≠
      ("index.docker.io".data, "foo".data) := by
  exact ⟨by decide, by decide⟩

/-- C8 amended: `split_docker_domain "foo"` is
`(defaultHost, "library/foo")` and `split_docker_domain "a.com/foo"` is
`("a.com", "foo")`.  In general a name with no `/`, or whose prefix
before the first `/` has neither `.` nor `:` and is not `localhost`, is
routed onto the default host (with `library/` prepended exactly when the
resulting remainder has no `/`); a name on another host is left
untouched, EXCEPT that the alias `index.docker.io` is rewritten to the
default host (and then subject to the `library/` rule), and an explicit
default-host prefix with a single-segment path also gets the `library/`
prefix. -/
theorem split_docker_domain_spec :
    split_docker_domain "foo".data =
      (DEFAULT_REGISTRY_HOST, "library/foo".data) ∧
    split_docker_domain "a.com/foo".data = ("a.com".data, "foo".data) ∧
    (∀ nm : Str, breakFirst '/' nm = none →
      split_docker_domain nm =
        (DEFAULT_REGISTRY_HOST, DEFAULT_REPO ++ '/' :: nm)) ∧
    (∀ nm pre post, breakFirst '/' nm = some (pre, post) →
      (¬∃ c ∈ pre, c = '.' ∨ c = ':') → pre ≠ "localhost".data →
      split_docker_domain nm = (DEFAULT_REGISTRY_HOST, nm)) ∧
    (∀ nm pre post, breakFirst '/' nm = some (pre, post) →
      ((∃ c ∈ pre, c = '.' ∨ c = ':') ∨ pre = "localhost".data) →
      pre ≠ "index.docker.io".data →
      (pre = DEFAULT_REGISTRY_HOST → '/' ∈ post) →
      split_docker_domain nm = (pre, post)) := by
  refine ⟨by decide, by decide, ?_, ?_, ?_⟩
  · intro nm hb
    have hraw : split_docker_domain_raw nm = (DEFAULT_REGISTRY_HOST, nm) := by
      unfold split_docker_domain_raw
      rw [hb]
    unfold split_docker_domain
    rw [hraw]
    have halias : split_docker_alias (DEFAULT_REGISTRY_HOST, nm) =
        (DEFAULT_REGISTRY_HOST, nm) := by
      unfold split_docker_alias
      rw [if_neg]
      show ¬DEFAULT_REGISTRY_HOST = "index.docker.io".data
      decide
    rw [halias]
    unfold split_docker_prepend
    rw [if_pos ⟨rfl, breakFirst_none_not_mem '/' nm hb⟩]
  · intro nm pre post hb hdot hloc
    have hraw : split_docker_domain_raw nm = (DEFAULT_REGISTRY_HOST, nm) := by
      unfold split_docker_domain_raw
      rw [hb]
      simp only
      rw [if_pos ⟨hdot, hloc⟩]
    unfold split_docker_domain
    rw [hraw]
    have halias : split_docker_alias (DEFAULT_REGISTRY_HOST, nm) =
        (DEFAULT_REGISTRY_HOST, nm) := by
      unfold split_docker_alias
      rw [if_neg]
      show ¬DEFAULT_REGISTRY_HOST = "index.docker.io".data
      decide
    rw [halias]
    unfold split_docker_prepend
    rw [if_neg]
    intro hcon
    exact hcon.2 (mem_of_breakFirst '/' nm pre post hb)
  · intro nm pre post hb hother halias hdh
    have hraw : split_docker_domain_raw nm = (pre, post) := by
      unfold split_docker_domain_raw
      rw [hb]
      simp only
      rw [if_neg]
      intro hcon
      rcases hother with h1 | h1
      · exact hcon.1 h1
      · exact hcon.2 h1
    unfold split_docker_domain
    rw [hraw]
    have hal : split_docker_alias (pre, post) = (pre, post) := by
      unfold split_docker_alias
      rw [if_neg halias]
    rw [hal]
    unfold split_docker_prepend
    rw [if_neg]
    intro hcon
    exact hcon.2 (hdh hcon.1)

/-- Witness for `split_docker_domain_spec`: the universally quantified
branches applied at `"bar"`, `"foo/bar"` and `"a.com/foo/bar"`. -/
theorem split_docker_domain_spec_witness :
    split_docker_domain "bar".data =
      (DEFAULT_REGISTRY_HOST, "library/bar".data) ∧
    split_docker_domain "foo/bar".data =
      (DEFAULT_REGISTRY_HOST, "foo/bar".data) ∧
    split_docker_domain "a.com/foo/bar".data =
      ("a.com".data, "foo/bar".data) :=
  ⟨by
    have h := (split_docker_domain_spec).2.2.1 "bar".data (by decide)
    simpa using h,
   (split_docker_domain_spec).2.2.2.1 "foo/bar".data "foo".data "bar".data
     (by decide) (by decide) (by decide),
   (split_docker_domain_spec).2.2.2.2 "a.com/foo/bar".data "a.com".data
     "foo/bar".data (by decide) (Or.inl (by decide)) (by decide)
     (fun h => absurd h (by decide))⟩

/-! ## `parse_normalized_named` (`reference.py:236-246`) -/

/-- Errors of `parse_normalized_named`: the two `Exception`s it raises
itself, plus propagated `parse` errors. -/
inductive PnnErr where
  | hex64Ambiguous
  | uppercaseRepoName
  | refErr (e : RefErr)
deriving DecidableEq

/-- The `remote_name` computed at `reference.py:240-243`: the remainder
up to (excluding) its first `:`, or the whole remainder. -/
def remote_name_of (remainder : Str) : Str :=
  match breakFirst ':' remainder with
  | some (p, _) => p
  | none => remainder

/-- `parse_normalized_named` (`reference.py:236-246`): reject a
64-character lowercase-hex string (the `re2.match("^([a-f0-9]{64})$")`
guard); split the domain; reject a `remote_name` that is not lowercase;
otherwise parse `domain/remainder`. -/
def parse_normalized_named (x : Str) : Except PnnErr Reference :=
  if x.length = 64 ∧ x.all isLowerHexC = true then .error .hex64Ambiguous
  else
    if pyIsLower (remote_name_of (split_docker_domain x).2) = false then
      .error .uppercaseRepoName
    else
      match parse ((split_docker_domain x).1 ++ '/' :: (split_docker_domain x).2) with
      | .ok r => .ok r
      | .error e => .error (.refErr e)

/-- C9: `parse_normalized_named` rejects every 64-character lowercase-hex
string outright, and fails on every input whose repository path portion
(the `remote_name` of the split remainder) contains an uppercase
letter. -/
theorem parse_normalized_named_rejects (x : Str) :
    (x.length = 64 → x.all isLowerHexC = true →
      parse_normalized_named x = .error .hex64Ambiguous) ∧
    ((remote_name_of (split_docker_domain x).2).any isUpperAl = true →
      ∃ e, parse_normalized_named x = .error e) := by
  constructor
  · intro hlen hhex
    unfold parse_normalized_named
    rw [if_pos ⟨hlen, hhex⟩]
  · intro hup
    unfold parse_normalized_named
    by_cases hhex : x.length = 64 ∧ x.all isLowerHexC = true
    · rw [if_pos hhex]
      exact ⟨.hex64Ambiguous, rfl⟩
    · rw [if_neg hhex,
        if_pos (hasUpper_not_pyIsLower (remote_name_of (split_docker_domain x).2) hup)]
      exact ⟨.uppercaseRepoName, rfl⟩

/-- Witness for `parse_normalized_named_rejects`: a 64-character
lowercase-hex string is rejected, and `"Foo"` (whose remote name
`library/Foo` contains an uppercase letter) fails. -/
theorem parse_normalized_named_rejects_witness :
    parse_normalized_named
        "aaaaaaaaaaaaaaaaaaaaaaaaaaaaaaaaaaaaaaaaaaaaaaaaaaaaaaaaaaaaaaaa".data =
      .error .hex64Ambiguous ∧
    ∃ e, parse_normalized_named "Foo".data = .error e :=
  ⟨(parse_normalized_named_rejects
      "aaaaaaaaaaaaaaaaaaaaaaaaaaaaaaaaaaaaaaaaaaaaaaaaaaaaaaaaaaaaaaaa".data).1
      (by decide) (by decide),
   (parse_normalized_named_rejects "Foo".data).2 (by decide)⟩

/-! ## Platform filtering of manifest lists (`utlis.py:184-218`) -/

/-- Modelled from the spec: `src/registry_client/platforms.py` is not in
the source snapshot.  Per spec sections 3 and 4.3 a `Platform` is an
immutable `{os, architecture, variant?}` descriptor compared for exact
equality of all three fields (an absent variant matches only an equally
absent variant). -/
structure Platform where
  os : Str
  architecture : Str
  variant : Option Str
deriving DecidableEq

/-- `LayerResp` (`utlis.py:184-192`): a descriptor carrying a media type,
size, digest and optional platform. -/
structure LayerResp where
  mediaType : Str
  size : Int
  digest : Digest
  platform : Option Platform
deriving DecidableEq

/-- Error raised by `ManifestsListResp.filter` (`utlis.py:217`): the
spec's name for `Exception("Not Found Matching image")`. -/
inductive FilterErr where
  | imageNotFoundForPlatform
deriving DecidableEq

/-- `ManifestsListResp` (`utlis.py:205-208`). -/
structure ManifestsListResp where
  manifests : List LayerResp
  mediaType : Str
  schemaVersion : Str

/-- `ManifestsListResp.filter` (`utlis.py:210-218`): iterate over the
entries, break at the first whose `platform` equals the target platform,
raise when the loop completes without a match, and return the digest of
the selected entry. -/
def ManifestsListResp.filter (m : ManifestsListResp) (target : Platform) :
    Except FilterErr Digest :=
  match m.manifests.find? (fun entry => entry.platform = some target) with
  | some entry => .ok entry.digest
  | none => .error .imageNotFoundForPlatform

/-- Padding entry used to state positional properties of `filter`. -/
def dummyLayer : LayerResp := ⟨[], 0, ⟨[]⟩, none⟩

theorem find?_first_match (p : LayerResp → Bool) :
    ∀ (l : List LayerResp) (i : Nat), i < l.length →
      p (l.getD i dummyLayer) = true →
      (∀ j, j < i → p (l.getD j dummyLayer) = false) →
      l.find? p = some (l.getD i dummyLayer) := by
  intro l
  induction l with
  | nil => intro i hi; simp at hi
  | cons a as ih =>
    intro i hi hp hprev
    cases i with
    | zero =>
      simp at hp
      simp [List.find?, hp]
    | succ k =>
      have ha : p a = false := by
        have := hprev 0 (Nat.zero_lt_succ k)
        simpa using this
      rw [List.find?]
      rw [ha]
      have hk : k < as.length := by
        simpa [Nat.succ_lt_succ_iff] using hi
      have hp' : p (as.getD k dummyLayer) = true := by simpa using hp
      have hprev' : ∀ j, j < k → p (as.getD j dummyLayer) = false := by
        intro j hj
        have := hprev (j + 1) (Nat.succ_lt_succ hj)
        simpa using this
      simpa using ih k hk hp' hprev'

theorem find?_no_match (p : LayerResp → Bool) :
    ∀ l : List LayerResp, (∀ e ∈ l, p e = false) → l.find? p = none := by
  intro l h
  rw [List.find?_eq_none]
  intro e he
  simp [h e he]

/-- C5: if entry `i` of the manifest list is the first whose platform
equals the target platform exactly, `filter` returns its digest; if no
entry's platform equals the target, `filter` fails with
`ImageNotFoundForPlatform`. -/
theorem manifests_filter_spec (m : ManifestsListResp) (target : Platform) :
    (∀ i, i < m.manifests.length →
      (m.manifests.getD i dummyLayer).platform = some target →
      (∀ j, j < i → (m.manifests.getD j dummyLayer).platform ≠ some target) →
      m.filter target = .ok (m.manifests.getD i dummyLayer).digest) ∧
    ((∀ e ∈ m.manifests, e.platform ≠ some target) →
      m.filter target = .error .imageNotFoundForPlatform) := by
  constructor
  · intro i hi hp hprev
    unfold ManifestsListResp.filter
    rw [find?_first_match (fun entry => entry.platform = some target)
      m.manifests i hi (by simp; simpa [List.getD] using hp)
      (fun j hj => by simp; simpa [List.getD] using hprev j hj)]
  · intro hall
    unfold ManifestsListResp.filter
    rw [find?_no_match (fun entry => entry.platform = some target)
      m.manifests (fun e he => by simp [hall e he])]

/-- Witness for `manifests_filter_spec`, mirroring the spec's concrete
example: a list with `{linux,amd64}` and `{linux,arm64}` entries resolves
target `{linux,arm64}` to the second entry's digest, and target
`{windows,amd64}` fails with `ImageNotFoundForPlatform`. -/
theorem manifests_filter_spec_witness :
    ManifestsListResp.filter
        ⟨[⟨[], 0, ⟨"sha256:aaa".data⟩, some ⟨"linux".data, "amd64".data, none⟩⟩,
          ⟨[], 0, ⟨"sha256:bbb".data⟩, some ⟨"linux".data, "arm64".data, none⟩⟩],
          [], []⟩
        ⟨"linux".data, "arm64".data, none⟩ =
      .ok ⟨"sha256:bbb".data⟩ ∧
    ManifestsListResp.filter
        ⟨[⟨[], 0, ⟨"sha256:aaa".data⟩, some ⟨"linux".data, "amd64".data, none⟩⟩,
          ⟨[], 0, ⟨"sha256:bbb".data⟩, some ⟨"linux".data, "arm64".data, none⟩⟩],
          [], []⟩
        ⟨"windows".data, "amd64".data, none⟩ =
      .error .imageNotFoundForPlatform := by
  constructor
  · have h := (manifests_filter_spec
      ⟨[⟨[], 0, ⟨"sha256:aaa".data⟩, some ⟨"linux".data, "amd64".data, none⟩⟩,
        ⟨[], 0, ⟨"sha256:bbb".data⟩, some ⟨"linux".data, "arm64".data, none⟩⟩],
        [], []⟩
      ⟨"linux".data, "arm64".data, none⟩).1 1 (by decide) (by decide)
      (by intro j hj; interval_cases j; decide)
    exact h
  · exact (manifests_filter_spec
      ⟨[⟨[], 0, ⟨"sha256:aaa".data⟩, some ⟨"linux".data, "amd64".data, none⟩⟩,
        ⟨[], 0, ⟨"sha256:bbb".data⟩, some ⟨"linux".data, "arm64".data, none⟩⟩],
        [], []⟩
      ⟨"windows".data, "amd64".data, none⟩).2
      (by intro e he; fin_cases he <;> decide)

/-! ## SHA-256 (`hashlib.sha256(...).hexdigest()` as used by
`utlis.py:36` and `client.py:170-176`)

The Python code delegates hashing to `hashlib`; the model implements
FIPS 180-4 SHA-256 executably over byte lists (`List Nat`, each entry
< 256), with 32-bit words as `Nat` reduced modulo `2^32`. -/

/-- Truncate to a 32-bit word. -/
def w32 (n : Nat) : Nat := n % 4294967296

/-- Right rotation of a 32-bit word. -/
def rotr (n x : Nat) : Nat := w32 ((x >>> n) ||| (x <<< (32 - n)))

/-- Bitwise complement within 32 bits (valid for `x < 2^32`). -/
def not32 (x : Nat) : Nat := 4294967295 - x

def sha256ch (x y z : Nat) : Nat := (x &&& y) ^^^ (not32 x &&& z)

def sha256maj (x y z : Nat) : Nat := (x &&& y) ^^^ (x &&& z) ^^^ (y &&& z)

def bigSigma0 (x : Nat) : Nat := rotr 2 x ^^^ rotr 13 x ^^^ rotr 22 x

def bigSigma1 (x : Nat) : Nat := rotr 6 x ^^^ rotr 11 x ^^^ rotr 25 x

def smallSigma0 (x : Nat) : Nat := rotr 7 x ^^^ rotr 18 x ^^^ (x >>> 3)

def smallSigma1 (x : Nat) : Nat := rotr 17 x ^^^ rotr 19 x ^^^ (x >>> 10)

/-- The 64 SHA-256 round constants. -/
def sha256K : List Nat :=
  [1116352408, 1899447441, 3049323471, 3921009573, 961987163,
   1508970993, 2453635748, 2870763221, 3624381080, 310598401,
   607225278, 1426881987, 1925078388, 2162078206, 2614888103,
   3248222580, 3835390401, 4022224774, 264347078, 604807628,
   770255983, 1249150122, 1555081692, 1996064986, 2554220882,
   2821834349, 2952996808, 3210313671, 3336571891, 3584528711,
   113926993, 338241895, 666307205, 773529912, 1294757372,
   1396182291, 1695183700, 1986661051, 2177026350, 2456956037,
   2730485921, 2820302411, 3259730800, 3345764771, 3516065817,
   3600352804, 4094571909, 275423344, 430227734, 506948616,
   659060556, 883997877, 958139571, 1322822218, 1537002063,
   1747873779, 1955562222, 2024104815, 2227730452, 2361852424,
   2428436474, 2756734187, 3204031479, 3329325298]

/-- The SHA-256 initial hash value. -/
def sha256H0 : List Nat :=
  [1779033703, 3144134277, 1013904242,
   2773480762, 1359893119, 2600822924,
   528734635, 1541459225]

/-- Big-endian 8-byte encoding of a length (here: the bit length). -/
def bigEndian8 (n : Nat) : List Nat :=
  [(n >>> 56) &&& 255, (n >>> 48) &&& 255, (n >>> 40) &&& 255,
   (n >>> 32) &&& 255, (n >>> 24) &&& 255, (n >>> 16) &&& 255,
   (n >>> 8) &&& 255, n &&& 255]

/-- SHA-256 padding: append `0x80`, zero bytes up to 56 mod 64, and the
big-endian 64-bit bit length. -/
def sha256pad (msg : List Nat) : List Nat :=
  msg ++ 128 :: List.replicate ((120 - (msg.length + 1) % 64) % 64) 0
    ++ bigEndian8 (8 * msg.length)

/-- Big-endian packing of bytes into 32-bit words. -/
def bytesToWords : List Nat → List Nat
  | b1 :: b2 :: b3 :: b4 :: rest =>
    (b1 <<< 24 ||| b2 <<< 16 ||| b3 <<< 8 ||| b4) :: bytesToWords rest
  | _ => []

/-- Message-schedule expansion from 16 to 64 words. -/
def sha256schedule (block : List Nat) : List Nat :=
  (List.range 48).foldl
    (fun w _ =>
      w ++ [w32 (smallSigma1 (w.getD (w.length - 2) 0)
        + w.getD (w.length - 7) 0
        + smallSigma0 (w.getD (w.length - 15) 0)
        + w.getD (w.length - 16) 0)])
    block

/-- The 64 compression rounds followed by the feed-forward addition. -/
def sha256compress (h block : List Nat) : List Nat :=
  let w := sha256schedule block
  let st := (List.range 64).foldl
    (fun (st : List Nat) t =>
      match st with
      | [a, b, c, d, e, f, g, hh] =>
        let t1 := w32 (hh + bigSigma1 e + sha256ch e f g
          + sha256K.getD t 0 + w.getD t 0)
        let t2 := w32 (bigSigma0 a + sha256maj a b c)
        [w32 (t1 + t2), a, b, c, w32 (d + t1), e, f, g]
      | other => other)
    h
  (h.zip st).map (fun p => w32 (p.1 + p.2))

/-- Process the padded words in 16-word blocks. -/
def sha256loop (h buf : List Nat) : List Nat → List Nat
  | [] => h
  | w :: ws =>
    if buf.length = 15 then sha256loop (sha256compress h (buf ++ [w])) [] ws
    else sha256loop h (buf ++ [w]) ws

/-- The 32 digest bytes of a byte message. -/
def sha256bytes (msg : List Nat) : List Nat :=
  ((sha256loop sha256H0 [] (bytesToWords (sha256pad msg))).map
    (fun x => [(x >>> 24) &&& 255, (x >>> 16) &&& 255,
      (x >>> 8) &&& 255, x &&& 255])).flatten

/-- Lowercase-hex character of a value below 16. -/
def hexChar (n : Nat) : Char :=
  if n < 10 then Char.ofNat (48 + n) else Char.ofNat (87 + n)

/-- The lowercase-hex digest string (`hexdigest()`): 64 characters. -/
def sha256hex (msg : List Nat) : Str :=
  ((sha256bytes msg).map (fun b => [hexChar (b / 16), hexChar (b % 16)])).flatten

/-- UTF-8 encoding of a character (Python `str.encode()`). -/
def utf8EncodeChar (c : Char) : List Nat :=
  let n := c.toNat
  if n < 128 then [n]
  else if n < 2048 then [192 + n / 64, 128 + n % 64]
  else if n < 65536 then
    [224 + n / 4096, 128 + n / 64 % 64, 128 + n % 64]
  else
    [240 + n / 262144, 128 + n / 4096 % 64, 128 + n / 64 % 64, 128 + n % 64]

/-- UTF-8 encoding of a string (Python `str.encode()`). -/
def utf8Encode (s : Str) : List Nat := (s.map utf8EncodeChar).flatten

/-- `hashlib.sha256(s.encode()).hexdigest()` for a string `s`. -/
def sha256hexOfStr (s : Str) : Str := sha256hex (utf8Encode s)

/-! ## Chain IDs (`utlis.py:31-47`) -/

/-- `get_chain_id` (`utlis.py:31-38`): fold the id list onto the parent;
an empty parent is replaced by the first id, otherwise the new parent is
`"sha256:" + sha256(parent + " " + id)`. -/
def get_chain_id (parent : Str) : List Str → Str
  | [] => parent
  | i :: is =>
    if parent = [] then get_chain_id i is
    else
      get_chain_id ("sha256:".data ++ sha256hexOfStr (parent ++ ' ' :: i)) is

/-- `diff_ids_to_chain_ids` (`utlis.py:41-47`): start from the first diff
id and append `get_chain_id(result[-1], [diff_id])` for each further diff
id.  (The source `assert`s a non-empty input; the claims only concern
non-empty inputs, so the empty case is mapped to the empty list.) -/
def diff_ids_to_chain_ids : List Str → List Str
  | [] => []
  | d0 :: rest =>
    rest.foldl (fun acc d => acc ++ [get_chain_id (acc.getLastD []) [d]]) [d0]

theorem get_chain_id_single (prev d : Str) (h : prev ≠ []) :
    get_chain_id prev [d] =
      "sha256:".data ++ sha256hexOfStr (prev ++ ' ' :: d) := by
  unfold get_chain_id
  rw [if_neg h]
  rfl

/-- The successive chain values appended by the loop of
`diff_ids_to_chain_ids`, starting after `prev`. -/
def chainList (prev : Str) : List Str → List Str
  | [] => []
  | d :: ds =>
    get_chain_id prev [d] :: chainList (get_chain_id prev [d]) ds

theorem diff_ids_foldl_eq_chainList :
    ∀ (rest : List Str) (acc : List Str), acc ≠ [] →
      rest.foldl (fun acc d => acc ++ [get_chain_id (acc.getLastD []) [d]]) acc =
        acc ++ chainList (acc.getLastD []) rest := by
  intro rest
  induction rest with
  | nil => intro acc _; simp [chainList]
  | cons d ds ih =>
    intro acc hacc
    rw [List.foldl_cons]
    have hacc' : acc ++ [get_chain_id (acc.getLastD []) [d]] ≠ [] := by simp
    rw [ih (acc ++ [get_chain_id (acc.getLastD []) [d]]) hacc']
    rw [List.getLastD_concat]
    simp [chainList]

theorem chainList_length (rest : List Str) :
    ∀ prev : Str, (chainList prev rest).length = rest.length := by
  induction rest with
  | nil => intro prev; simp [chainList]
  | cons d ds ih => intro prev; simp [chainList, ih]

theorem chainList_getD (rest : List Str) :
    ∀ (prev : Str), prev ≠ [] → ∀ i, i < rest.length →
      (prev :: chainList prev rest).getD (i + 1) [] =
        "sha256:".data ++
          sha256hexOfStr ((prev :: chainList prev rest).getD i []
            ++ ' ' :: rest.getD i []) := by
  induction rest with
  | nil => intro prev _ i hi; simp at hi
  | cons d ds ih =>
    intro prev hprev i hi
    have hnxt : get_chain_id prev [d] =
        "sha256:".data ++ sha256hexOfStr (prev ++ ' ' :: d) :=
      get_chain_id_single prev d hprev
    cases i with
    | zero =>
      simp only [chainList, List.getD]
      simpa using hnxt
    | succ k =>
      have hnxt_ne : get_chain_id prev [d] ≠ [] := by
        rw [hnxt]; simp
      have hk : k < ds.length := by
        simpa [Nat.succ_lt_succ_iff] using hi
      have := ih (get_chain_id prev [d]) hnxt_ne k hk
      simpa [chainList, List.getD] using this

/-- C10 counterexample: with an empty first diff id, `get_chain_id` takes
its `parent == ""` branch, so the second chain id is the second diff id
itself rather than `"sha256:" + sha256(parent + " " + id)` as the claim
states for every non-empty list. -/
theorem diff_ids_chain_empty_first_cex :
    (diff_ids_to_chain_ids [[], ['a']]).getD 1 [] = ['a'] ∧
    (['a'] : Str) ≠ "sha256:".data ++
      sha256hexOfStr ((diff_ids_to_chain_ids [[], ['a']]).getD 0 []
        ++ ' ' :: ['a']) := by
  constructor
  · rfl
  · intro hcon
    have hlen := congrArg List.length hcon
    rw [List.length_append] at hlen
    simp only [List.length_cons, List.length_nil] at hlen
    omega

/-- C10 amended: for every non-empty list of diff ids whose FIRST element
is non-empty, the chain-id list has the same length, starts with the
first diff id, and each later element is `"sha256:"` followed by the
SHA-256 hex digest of `previous chain id + " " + current diff id`.  (When
the first diff id is the empty string, `get_chain_id` instead returns the
next diff id unchanged — the counterexample.) -/
theorem diff_ids_to_chain_ids_spec (ds : List Str) (h0 : ds ≠ [])
    (hne : ds.headD [] ≠ []) :
    (diff_ids_to_chain_ids ds).length = ds.length ∧
    (diff_ids_to_chain_ids ds).getD 0 [] = ds.getD 0 [] ∧
    (∀ i, i + 1 < ds.length →
      (diff_ids_to_chain_ids ds).getD (i + 1) [] =
        "sha256:".data ++
          sha256hexOfStr ((diff_ids_to_chain_ids ds).getD i []
            ++ ' ' :: ds.getD (i + 1) [])) := by
  match ds, h0 with
  | d0 :: rest, _ =>
    have hd0 : d0 ≠ [] := by simpa using hne
    have hfold : diff_ids_to_chain_ids (d0 :: rest) =
        d0 :: chainList d0 rest := by
      show rest.foldl
          (fun acc d => acc ++ [get_chain_id (acc.getLastD []) [d]]) [d0] =
        d0 :: chainList d0 rest
      rw [diff_ids_foldl_eq_chainList rest [d0] (by simp)]
      rfl
    refine ⟨?_, ?_, ?_⟩
    · rw [hfold]
      simp [chainList_length]
    · rw [hfold]
      rfl
    · intro i hi
      rw [hfold]
      have hi' : i < rest.length := by
        simpa [Nat.succ_lt_succ_iff] using hi
      have := chainList_getD rest d0 hd0 i hi'
      simpa [List.getD] using this

/-- Witness for `diff_ids_to_chain_ids_spec` at `["a", "b"]`. -/
theorem diff_ids_to_chain_ids_spec_witness :
    (diff_ids_to_chain_ids ["a".data, "b".data]).length = 2 ∧
    (diff_ids_to_chain_ids ["a".data, "b".data]).getD 0 [] = "a".data ∧
    (diff_ids_to_chain_ids ["a".data, "b".data]).getD 1 [] =
      "sha256:".data ++ sha256hexOfStr ("a".data ++ ' ' :: "b".data) := by
  have h := diff_ids_to_chain_ids_spec ["a".data, "b".data]
    (by simp) (by simp)
  refine ⟨by simpa using h.1, by simpa using h.2.1, ?_⟩
  have h3 := h.2.2 0 (by simp)
  rw [h.2.1] at h3
  simpa using h3

/-! ## Auth challenges (`utlis.py:109-127`, `client.py:67-76`) -/

/-- `ChallengeScheme` (`utlis.py:109-111`): the enum has exactly the two
members `Bearer` and `Basic`. -/
inductive ChallengeScheme where
  | Bearer
  | Basic
deriving DecidableEq

/-- The exceptions `PingResp.__post_init__` can raise
(`utlis.py:118-123`). -/
inductive PingErr where
  | unpackError
  | paramFormat
  | invalidScheme
  | missingKey
deriving DecidableEq

/-- `ChallengeScheme(scheme)` (`utlis.py:121`): enum lookup by value,
`ValueError` (here `none`) for any other string. -/
def challengeSchemeOfStr (s : Str) : Option ChallengeScheme :=
  if s = "Bearer".data then some .Bearer
  else if s = "Basic".data then some .Basic
  else none

/-- A parsed ping response (`utlis.py:114-123`). -/
structure PingResp where
  scheme : ChallengeScheme
  realm : Str
  service : Str
deriving DecidableEq

/-- Python `str.strip('"')`: remove leading and trailing `"` runs
(`utlis.py:122-123`). -/
def stripQuotes (s : Str) : Str :=
  ((s.dropWhile (fun c => c == '"')).reverse.dropWhile
    (fun c => c == '"')).reverse

/-- Lookup in the dict built at `utlis.py:120`: with duplicate keys the
last binding wins, as in Python `dict(...)`. -/
def assocLast (ps : List (Str × Str)) (k : Str) : Option Str :=
  ps.foldl (fun acc p => if p.1 = k then some p.2 else acc) none

/-- `PingResp.__post_init__` (`utlis.py:118-123`): split the header into
scheme and parameters at the (single) space, build the parameter dict
from `key=value` pairs, convert the scheme string through the enum, and
extract `realm` and `service` (stripping quotes).  Each failing step
raises: tuple unpacking, `dict(...)` over a non-pair, the enum
conversion, and `None.strip` respectively. -/
def ping_resp_post_init (headers : Str) : Except PingErr PingResp :=
  match splitOnChar ' ' headers with
  | [scheme, params] =>
    match (splitOnChar ',' params).mapM (fun p =>
        match splitOnChar '=' p with
        | [k, v] => some (k, v)
        | _ => none) with
    | none => .error .paramFormat
    | some pairs =>
      match challengeSchemeOfStr scheme with
      | none => .error .invalidScheme
      | some sc =>
        match assocLast pairs "realm".data, assocLast pairs "service".data with
        | some r, some s => .ok ⟨sc, stripQuotes r, stripQuotes s⟩
        | _, _ => .error .missingKey
  | _ => .error .unpackError

/-- The outcome of `ImageClient._handle_challenges` (`client.py:67-76`):
either the empty header dict, or the invocation of the (network-talking)
bearer handler. -/
inductive AuthHeaderResult where
  | empty
  | bearerHandler (challenge : PingResp)
deriving DecidableEq

/-- `_handle_challenges` (`client.py:67-76`): the lookup table maps only
`Bearer` to a handler class; any other scheme finds no handler and
returns the empty dict. -/
def handle_challenges (challenge : PingResp) : AuthHeaderResult :=
  match challenge.scheme with
  | .Bearer => .bearerHandler challenge
  | .Basic => .empty

/-- The full path from a raw `WWW-Authenticate` header to the auth
header resolution: `PingResp(header)` then `_handle_challenges`
(`client.py:50-65`). -/
def resolve_auth_header (headers : Str) : Except PingErr AuthHeaderResult :=
  (ping_resp_post_init headers).map handle_challenges

/-- C6 counterexample: a well-formed challenge whose scheme is `Digest`
(neither `Bearer` nor `Basic`) makes `PingResp.__post_init__` raise a
`ValueError` at the `ChallengeScheme(scheme)` conversion
(`utlis.py:121`), so resolution raises instead of returning the empty
credential set the claim promises for every non-Bearer scheme. -/
theorem digest_challenge_raises_cex :
    resolve_auth_header "Digest realm=\"r\",service=\"s\"".data =
      .error .invalidScheme ∧
    resolve_auth_header "Digest realm=\"r\",service=\"s\"".data ≠
      .ok .empty := by
  exact ⟨by decide, by decide⟩

/-- C6 amended: for every ping response that parses (its scheme is one of
the two enum members), a scheme other than `Bearer` — i.e. `Basic` —
resolves to the empty credential set without error, since the handler
lookup table wires only `Bearer`; but a challenge string with any other
scheme raises at `PingResp` construction. -/
theorem non_bearer_challenge_spec :
    (∀ resp : PingResp, resp.scheme ≠ .Bearer →
      handle_challenges resp = .empty) ∧
    ping_resp_post_init "Digest realm=\"r\",service=\"s\"".data =
      .error .invalidScheme := by
  constructor
  · intro resp h
    cases hres : resp.scheme with
    | Bearer => exact absurd hres h
    | Basic => simp [handle_challenges, hres]
  · decide

/-- Witness for `non_bearer_challenge_spec`: a parsed `Basic` challenge
resolves to the empty credential set. -/
theorem non_bearer_challenge_spec_witness :
    handle_challenges ⟨.Basic, "r".data, "s".data⟩ = .empty :=
  (non_bearer_challenge_spec).1 ⟨.Basic, "r".data, "s".data⟩ (by decide)

/-! ## The pull pipeline (`client.py:149-260`)

The model keeps the pieces the claims are about: per-layer download with
streaming hash verification, the `@logger.catch` decorators that swallow
exceptions, the `RepoTags` computation, and the names of the artifacts
written.  HTTP transport, gzip decompression and tar assembly are the
spec's excluded collaborators; a downloaded blob is modelled by its raw
byte content, and each artifact write by its file name in order. -/

/-- Exceptions of the pull path. `assertionLayerDigestMismatch` is the
`assert hasher.hexdigest() == digest[7:]` at `client.py:176` — the
failure the spec names `LayerDigestMismatch`.  `nameErrorRepo` is the
`NameError` from the undefined name `repo` at `client.py:244` (the
enclosing-scope global; only the `__main__` block of the script defines
it).  `fileNotFoundLastLayerDir` is the `FileNotFoundError` from
`open(image_save_dir/<lastDigestHex>/json, "w")` at `client.py:254` when
the last layer's worker failed before `GZipDeCompress` created that
directory (`client.py:181`).  `indexErrorEmptyLayers` is the
`IndexError` of `digests[-1]` at `client.py:254` on a manifest with no
layers.  `nameErrorShutil` is the `NameError` from the never-imported
`shutil` at `client.py:260`. -/
inductive PullErr where
  | assertionLayerDigestMismatch
  | nameErrorRepo
  | fileNotFoundLastLayerDir
  | indexErrorEmptyLayers
  | nameErrorShutil
deriving DecidableEq

/-- `_download_and_decompress_layer` (`client.py:149-183`): stream the
blob while hashing the raw compressed bytes, then `assert` the hex
digest equals `digest[7:]`; on success the layer directory
`<digestHex>/layer.tar` results. -/
def download_and_decompress_layer (blob : List Nat) (digest : Str) :
    Except PullErr Str :=
  if sha256hex blob = digest.drop 7 then
    .ok (digest.drop 7 ++ "/layer.tar".data)
  else .error .assertionLayerDigestMismatch

/-- The `@logger.catch` decorator (loguru): it catches any exception of
the wrapped call, logs it, and returns `None` instead of re-raising. -/
def logger_catch {a : Type} (r : Except PullErr a) : Option a :=
  r.toOption

/-- The `RepoTags` computation inside `pull_image` (`client.py:243-247`).
The condition compares the module-level name `repo` — NOT the `repo_name`
parameter; `repo` exists only when `client.py` runs as a script (its
`__main__` block sets `repo = "test"`), so the model takes the value of
that global as an argument (`none` = undefined, raising `NameError`). -/
def manifest_repo_tags (repoGlobal : Option Str)
    (host repo_name image_name reference : Str) : Except PullErr Str :=
  match repoGlobal with
  | none => .error .nameErrorRepo
  | some repo =>
    if host = DEFAULT_REGISTRY_HOST ∧ repo = DEFAULT_REPO then
      .ok (image_name ++ ':' :: reference)
    else
      .ok (host ++ '/' :: repo_name ++ '/' :: image_name ++ ':' :: reference)

/-- Observable outcome of one `pull_image` call: the artifacts written
(in order), the `RepoTags` value written into `manifest.json` (when the
write completed), and the exception raised inside the body — swallowed
by the `@logger.catch` decorator on `pull_image` itself
(`client.py:185`). -/
structure PullResult where
  files : List Str
  repoTags : Option Str
  raised : Option PullErr
deriving DecidableEq

/-- `pull_image` (`client.py:186-260`).  The config json and `VERSION`
are written first (lines 222-227); the layer workers run under
`@logger.catch`, and their results are never inspected (`jobs` is
unread, lines 230-241), so a failed layer assert neither aborts the pull
nor is re-raised; `manifest.json` is opened and fully written
(lines 243-253) — with the `repo` global undefined the `NameError` fires
inside the `with open` block, after the file exists.  Line 254 then
opens `<lastDigestHex>/json`: that directory exists only if the LAST
layer's worker got past its assert and ran `GZipDeCompress`
(`client.py:181`), so a failed (or absent) last layer raises
`FileNotFoundError` (resp. `IndexError`) there — swallowed by the
decorator — and neither the archive nor the `shutil` line is reached;
only when the last layer verified are the last layer's `json` and the
archive `<repo_name>_<image_name>.tar` produced (lines 254-259), after
which the final `shutil.rmtree` raises `NameError` (line 260), likewise
swallowed. -/
def pull_image (repoGlobal : Option Str)
    (host repo_name image_name reference : Str)
    (layers : List (Str × List Nat)) : PullResult :=
  let base := ["config.json".data, "VERSION".data]
  let layerResults := layers.map
    (fun l => logger_catch (download_and_decompress_layer l.2 l.1))
  match manifest_repo_tags repoGlobal host repo_name image_name reference with
  | .error e =>
    { files := base ++ ["manifest.json".data],
      repoTags := none,
      raised := some e }
  | .ok tags =>
    match layerResults.getLast? with
    | none =>
      { files := base ++ ["manifest.json".data],
        repoTags := some tags,
        raised := some .indexErrorEmptyLayers }
    | some none =>
      { files := base ++ ["manifest.json".data],
        repoTags := some tags,
        raised := some .fileNotFoundLastLayerDir }
    | some (some _) =>
      { files := base ++ ["manifest.json".data, "last-layer-json".data,
          repo_name ++ '_' :: image_name ++ ".tar".data],
        repoTags := some tags,
        raised := some .nameErrorShutil }

set_option maxRecDepth 10000 in
/-- C1: a layer whose bytes hash differently from the declared digest
makes the worker's assert fail (`client.py:176`) — but the exception is
swallowed (`@logger.catch`, and `jobs` results are never read), so the
pull never fails with the layer-digest error and still writes
`manifest.json`.  With the failing layer last, the archive step is
skipped only because `open(<lastDigestHex>/json)` raises
`FileNotFoundError` at `client.py:254` (the digest directory was never
created), again swallowed; with the failing layer first and a verifying
layer last, the pull even writes the output archive and its body ends in
the unrelated `shutil` `NameError`.  Both runs exhibit the divergence
from the claim that such a pull fails with `LayerDigestMismatch`
producing neither `manifest.json` nor an archive. -/
theorem layer_mismatch_still_writes_manifest :
    download_and_decompress_layer []
        ("sha256:".data ++ List.replicate 64 '0') =
      .error .assertionLayerDigestMismatch ∧
    "manifest.json".data ∈
      (pull_image (some "test".data) DEFAULT_REGISTRY_HOST "library".data
        "foo".data "latest".data
        [("sha256:".data ++ List.replicate 64 '0', [])]).files ∧
    (pull_image (some "test".data) DEFAULT_REGISTRY_HOST "library".data
        "foo".data "latest".data
        [("sha256:".data ++ List.replicate 64 '0', [])]).raised =
      some .fileNotFoundLastLayerDir ∧
    "manifest.json".data ∈
      (pull_image (some "test".data) DEFAULT_REGISTRY_HOST "library".data
        "foo".data "latest".data
        [("sha256:".data ++ List.replicate 64 '0', []),
         ("sha256:".data ++ sha256hex [], [])]).files ∧
    "library_foo.tar".data ∈
      (pull_image (some "test".data) DEFAULT_REGISTRY_HOST "library".data
        "foo".data "latest".data
        [("sha256:".data ++ List.replicate 64 '0', []),
         ("sha256:".data ++ sha256hex [], [])]).files ∧
    (pull_image (some "test".data) DEFAULT_REGISTRY_HOST "library".data
        "foo".data "latest".data
        [("sha256:".data ++ List.replicate 64 '0', []),
         ("sha256:".data ++ sha256hex [], [])]).raised =
      some .nameErrorShutil := by
  exact ⟨by decide, by decide, by decide, by decide, by decide, by decide⟩

/-- C7: the elision condition at `client.py:244` tests the unrelated
module global `repo` (`"test"` in the script's `__main__` block) instead
of the `repo_name` parameter, so a pull of `library/foo:latest` from the
default host writes the fully qualified
`registry-1.docker.io/library/foo:latest` instead of the claimed
`foo:latest`; with `client.py` imported (no `repo` global), the write
raises `NameError` instead. -/
theorem repo_tags_uses_wrong_variable :
    manifest_repo_tags (some "test".data) DEFAULT_REGISTRY_HOST
        "library".data "foo".data "latest".data =
      .ok "registry-1.docker.io/library/foo:latest".data ∧
    (Except.ok "registry-1.docker.io/library/foo:latest".data :
        Except PullErr Str) ≠ .ok "foo:latest".data ∧
    manifest_repo_tags none DEFAULT_REGISTRY_HOST "library".data
        "foo".data "latest".data = .error .nameErrorRepo := by
  exact ⟨by decide, by decide, by decide⟩
